import Mathlib

set_option linter.unusedVariables false

/-!
Shallow embedding of the caching core of the repository
(`ScreenWriter/hugging_api/cache/request_saver.py`): request-key derivation
(`make_cache_key`), the SQLite-backed exact store (`DiskCache`), the
Chroma-backed semantic cache (`SemanticCache`), and the `cache_llm_call`
wrapper that chains them.  External engines (SQLite, Chroma, the embedding
model) are modelled at their observable interfaces; the Python standard
library pieces the code uses (`json.dumps`, `json.loads`, `hashlib.sha256`)
are implemented faithfully below.
-/

/-- Python values restricted to the fragment the cache layer handles:
JSON-representable data plus `obj`, standing for any Python object that
`json.dumps` cannot serialize (floats are outside the model).  Python's
`None` is `PyVal.none`. -/
inductive PyVal where
  | none
  | bool (b : Bool)
  | int (n : Int)
  | str (s : String)
  | list (xs : List PyVal)
  | dict (kvs : List (String × PyVal))
  | obj (tag : String)

/-- Exceptions the embedded code can raise. `exc` covers exceptions of the
collaborators (embedding backend, compute function) identified by name. -/
inductive PyErr where
  | typeError
  | jsonDecodeError
  | indexError
  | keyError
  | exc (name : String)
deriving DecidableEq, Repr

/-- A message is a `Dict[str, str]` per the source's type annotations,
in insertion order. -/
abbrev Msg := List (String × String)

/-- The `extras` mapping: `Dict[str, Any]` in insertion order. -/
abbrev Extras := List (String × PyVal)

/-- Hex digit characters, lowercase as Python produces them. -/
def hexDigit (n : Nat) : Char := "0123456789abcdef".toList.getD n '0'

/-- One character of Python's JSON string encoder with `ensure_ascii=False`:
escape the quote, the backslash, the shorthand control characters, and the
remaining control characters below 0x20 as `\u00XX`; pass everything else
through untouched. -/
def escapeChar (c : Char) : String :=
  if c = '"' then "\\\""
  else if c = '\\' then "\\\\"
  else if c = '\n' then "\\n"
  else if c = '\t' then "\\t"
  else if c = '\r' then "\\r"
  else if c = Char.ofNat 8 then "\\b"
  else if c = Char.ofNat 12 then "\\f"
  else if c.toNat < 32 then
    "\\u00" ++ String.mk [hexDigit (c.toNat / 16), hexDigit (c.toNat % 16)]
  else String.mk [c]

/-- Python's JSON encoding of a string (with `ensure_ascii=False`). -/
def encode_json_string (s : String) : String :=
  "\"" ++ String.join (s.toList.map escapeChar) ++ "\""

/-- Order on key/value pairs by key, as Python's `sort_keys=True` compares
dictionary items (string comparison is code-point lexicographic in both
languages). -/
def keyLe {β : Type} (a b : String × β) : Prop := a.1 ≤ b.1

instance {β : Type} : DecidableRel (@keyLe β) :=
  fun a b => inferInstanceAs (Decidable (a.1 ≤ b.1))

instance {β : Type} : IsTotal (String × β) keyLe :=
  ⟨fun a b => le_total a.1 b.1⟩

instance {β : Type} : IsTrans (String × β) keyLe :=
  ⟨fun a b c h1 h2 => le_trans h1 h2⟩

/-- Stable sort of dictionary items by key (Python's `sorted(items)` under
`sort_keys=True`; stability matches Python's sort). -/
def sortPairs {β : Type} (l : List (String × β)) : List (String × β) :=
  List.insertionSort keyLe l

mutual
/-- Whether `json.dumps` accepts the value: true iff no non-serializable
object occurs anywhere inside it. -/
def serializableB : PyVal → Bool
  | .none => true
  | .bool _ => true
  | .int _ => true
  | .str _ => true
  | .obj _ => false
  | .list xs => serializableList xs
  | .dict kvs => serializablePairs kvs

def serializableList : List PyVal → Bool
  | [] => true
  | x :: xs => serializableB x && serializableList xs

def serializablePairs : List (String × PyVal) → Bool
  | [] => true
  | p :: rest => serializableB p.2 && serializablePairs rest
end

mutual
/-- Python's `json.dumps` on a value, parametrized like the source uses it:
`sk` is `sort_keys`, `isep`/`ksep` the item and key separators.  Dictionary
entries are serialized and, under `sort_keys=True`, stably sorted by key
(equivalent to Python's sort-items-then-serialize order).  A
non-serializable object raises `TypeError`. -/
def dumpsVal (sk : Bool) (isep ksep : String) : PyVal → Except PyErr String
  | .none => .ok "null"
  | .bool b => .ok (if b then "true" else "false")
  | .int n => .ok (toString n)
  | .str s => .ok (encode_json_string s)
  | .obj _ => .error .typeError
  | .list xs => do
      let parts ← dumpsList sk isep ksep xs
      .ok ("[" ++ String.intercalate isep parts ++ "]")
  | .dict kvs => do
      let pairs ← dumpsPairs sk isep ksep kvs
      let pairs2 := if sk then sortPairs pairs else pairs
      .ok ("\x7b" ++
        String.intercalate isep (pairs2.map fun p => encode_json_string p.1 ++ ksep ++ p.2) ++
        "\x7d")

def dumpsList (sk : Bool) (isep ksep : String) : List PyVal → Except PyErr (List String)
  | [] => .ok []
  | x :: xs => do
      let s ← dumpsVal sk isep ksep x
      let rest ← dumpsList sk isep ksep xs
      .ok (s :: rest)

def dumpsPairs (sk : Bool) (isep ksep : String) :
    List (String × PyVal) → Except PyErr (List (String × String))
  | [] => .ok []
  | p :: rest => do
      let s ← dumpsVal sk isep ksep p.2
      let r ← dumpsPairs sk isep ksep rest
      .ok ((p.1, s) :: r)
end

/-- `_stable_dumps`: `json.dumps(obj, ensure_ascii=False, sort_keys=True,
separators=(",", ":"))`. -/
def stable_dumps (v : PyVal) : Except PyErr String := dumpsVal true "," ":" v

/-- `json.dumps(x, ensure_ascii=False)` with Python's default separators,
as used by the default `response_to_str` and by `SemanticCache.put`. -/
def default_dumps (v : PyVal) : Except PyErr String := dumpsVal false ", " ": " v

/-- The serialized text of a serializable value (total companion of
`dumpsVal`). -/
def dumpStr (sk : Bool) (isep ksep : String) (v : PyVal) : String :=
  match dumpsVal sk isep ksep v with
  | .ok s => s
  | .error _ => ""

/-! SHA-256 (`hashlib.sha256`), implemented over byte lists with 32-bit
modular arithmetic, per FIPS 180-4. -/

def rotr32 (n x : Nat) : Nat := ((x >>> n) ||| (x <<< (32 - n))) % 4294967296

def bsig0 (x : Nat) : Nat := rotr32 2 x ^^^ rotr32 13 x ^^^ rotr32 22 x
def bsig1 (x : Nat) : Nat := rotr32 6 x ^^^ rotr32 11 x ^^^ rotr32 25 x
def ssig0 (x : Nat) : Nat := rotr32 7 x ^^^ rotr32 18 x ^^^ (x >>> 3)
def ssig1 (x : Nat) : Nat := rotr32 17 x ^^^ rotr32 19 x ^^^ (x >>> 10)
def chf (e f g : Nat) : Nat := (e &&& f) ^^^ ((e ^^^ 4294967295) &&& g)
def majf (a b c : Nat) : Nat := (a &&& b) ^^^ (a &&& c) ^^^ (b &&& c)

/-- The 64 round constants (decimal). -/
def sha256_K : List Nat :=
  [1116352408, 1899447441, 3049323471, 3921009573, 961987163,
   1508970993, 2453635748, 2870763221, 3624381080, 310598401,
   607225278, 1426881987, 1925078388, 2162078206, 2614888103,
   3248222580, 3835390401, 4022224774, 264347078, 604807628,
   770255983, 1249150122, 1555081692, 1996064986, 2554220882,
   2821834349, 2952996808, 3210313671, 3336571891, 3584528711,
   113926993, 338241895, 666307205, 773529912, 1294757372,
   1396182291, 1695183700, 1986661051, 2177026350, 2456956037,
   2730485921, 2820302411, 3259730800, 3345764771, 3516065817,
   3600352804, 4094571909, 275423344, 430227734, 506948616,
   659060556, 883997877, 958139571, 1322822218, 1537002063,
   1747873779, 1955562222, 2024104815, 2227730452, 2361852424,
   2428436474, 2756734187, 3204031479, 3329325298]

/-- The initial hash state (decimal). -/
def sha256_H0 : List Nat :=
  [1779033703, 3144134277, 1013904242, 2773480762,
   1359893119, 2600822924, 528734635, 1541459225]

/-- Append the 0x80 byte, zero padding to 56 mod 64, and the 64-bit
big-endian bit length. -/
def sha256_pad (msg : List Nat) : List Nat :=
  let L := msg.length
  let k := (119 - L % 64) % 64
  let bitLen := 8 * L
  msg ++ [128] ++ List.replicate k 0 ++
    ((List.range 8).map fun i => (bitLen >>> (8 * (7 - i))) % 256)

/-- Big-endian 32-bit words from bytes. -/
def toWords : List Nat → List Nat
  | b0 :: b1 :: b2 :: b3 :: rest =>
      (b0 * 16777216 + b1 * 65536 + b2 * 256 + b3) :: toWords rest
  | _ => []

/-- Split a word list into 16-word blocks. -/
def chunk16 (ws : List Nat) : List (List Nat) :=
  if h : ws = [] then []
  else ws.take 16 :: chunk16 (ws.drop 16)
termination_by ws.length
decreasing_by
  simp only [List.length_drop]
  exact Nat.sub_lt (List.length_pos.mpr h) (by omega)

/-- Message schedule: extend 16 words to 64. -/
def sha256_schedule (ws : List Nat) : Array Nat :=
  (List.range 48).foldl
    (fun w i =>
      let t := (ssig1 (w.getD (i + 14) 0) + w.getD (i + 9) 0 +
                ssig0 (w.getD (i + 1) 0) + w.getD i 0) % 4294967296
      w.push t)
    ws.toArray

/-- One compression round over a 16-word block. -/
def sha256_compress (hs : List Nat) (blockWs : List Nat) : List Nat :=
  let w := sha256_schedule blockWs
  let step := fun (st : Nat × Nat × Nat × Nat × Nat × Nat × Nat × Nat) (i : Nat) =>
    let (a, b, c, d, e, f, g, hh) := st
    let t1 := (hh + bsig1 e + chf e f g + sha256_K.getD i 0 + w.getD i 0) % 4294967296
    let t2 := (bsig0 a + majf a b c) % 4294967296
    ((t1 + t2) % 4294967296, a, b, c, (d + t1) % 4294967296, e, f, g)
  let init := (hs.getD 0 0, hs.getD 1 0, hs.getD 2 0, hs.getD 3 0,
               hs.getD 4 0, hs.getD 5 0, hs.getD 6 0, hs.getD 7 0)
  let fin := (List.range 64).foldl step init
  let (a, b, c, d, e, f, g, hh) := fin
  [(hs.getD 0 0 + a) % 4294967296, (hs.getD 1 0 + b) % 4294967296,
   (hs.getD 2 0 + c) % 4294967296, (hs.getD 3 0 + d) % 4294967296,
   (hs.getD 4 0 + e) % 4294967296, (hs.getD 5 0 + f) % 4294967296,
   (hs.getD 6 0 + g) % 4294967296, (hs.getD 7 0 + hh) % 4294967296]

def sha256_words (msg : List Nat) : List Nat :=
  (chunk16 (toWords (sha256_pad msg))).foldl sha256_compress sha256_H0

def word_hex (w : Nat) : String :=
  String.mk ((List.range 8).map fun i => hexDigit ((w >>> (4 * (7 - i))) % 16))

/-- `hashlib.sha256(bytes).hexdigest()`. -/
def sha256_hexdigest (s : String) : String :=
  String.join ((sha256_words (s.toUTF8.toList.map UInt8.toNat)).map word_hex)

/-- The message list as the Python value `json.dumps` sees. -/
def msgVal (m : Msg) : PyVal := .dict (m.map fun p => (p.1, .str p.2))

/-- `make_cache_key(model, messages, extras)`: hash of the canonical dump of
`{"model": model, "messages": messages, "extras": extras or \x7b\x7d}`.
`extras or \x7b\x7d` maps both `None` and the empty mapping to the empty
mapping. -/
def make_cache_key (model : String) (messages : List Msg) (extras : Option Extras) :
    Except PyErr String := do
  let payload : PyVal := .dict
    [("model", .str model),
     ("messages", .list (messages.map msgVal)),
     ("extras", .dict (extras.getD []))]
  let s ← stable_dumps payload
  pure (sha256_hexdigest s)

/-! `DiskCache`: the SQLite table `cache(key TEXT PRIMARY KEY, response TEXT,
created_at REAL)`, modelled as its list of rows.  Timestamps (`time.time()`)
and real columns are modelled as rationals supplied by the caller. -/

/-- One row: key, response, created_at. -/
abbrev DiskRow := String × String × ℚ

/-- `SELECT response FROM cache WHERE key=?` then `fetchone`: the stored
response for the key, or `None`. -/
def DiskCache.get (rows : List DiskRow) (key : String) : Option String :=
  match rows.find? (fun r => r.1 == key) with
  | some r => some r.2.1
  | Option.none => Option.none

/-- `INSERT OR REPLACE INTO cache ...`: the conflicting row (same primary
key) is replaced by the new one, with a fresh timestamp. -/
def DiskCache.set (rows : List DiskRow) (key response : String) (now : ℚ) : List DiskRow :=
  rows.filter (fun r => r.1 != key) ++ [(key, response, now)]

/-! `json.loads`, as a recursive-descent parser over the character list.
Only the fragment of JSON the model covers is accepted: floats, lone
surrogates and surrogate pairs in `\u` escapes are rejected. -/

def skipWs : List Char → List Char
  | [] => []
  | c :: cs =>
      if c = ' ' ∨ c = '\t' ∨ c = '\n' ∨ c = '\r' then skipWs cs else c :: cs

def hexVal (c : Char) : Option Nat :=
  if '0' ≤ c ∧ c ≤ '9' then some (c.toNat - 48)
  else if 'a' ≤ c ∧ c ≤ 'f' then some (c.toNat - 87)
  else if 'A' ≤ c ∧ c ≤ 'F' then some (c.toNat - 55)
  else Option.none

/-- Body of a JSON string after the opening quote, with the usual escapes. -/
def parseJString (fuel : Nat) (acc : List Char) (cs : List Char) :
    Option (String × List Char) :=
  match fuel with
  | 0 => Option.none
  | fuel + 1 =>
    match cs with
    | [] => Option.none
    | c :: rest =>
      if c = '"' then some (String.mk acc.reverse, rest)
      else if c = '\\' then
        match rest with
        | [] => Option.none
        | e :: rest2 =>
          if e = '"' then parseJString fuel ('"' :: acc) rest2
          else if e = '\\' then parseJString fuel ('\\' :: acc) rest2
          else if e = '/' then parseJString fuel ('/' :: acc) rest2
          else if e = 'n' then parseJString fuel ('\n' :: acc) rest2
          else if e = 't' then parseJString fuel ('\t' :: acc) rest2
          else if e = 'r' then parseJString fuel ('\r' :: acc) rest2
          else if e = 'b' then parseJString fuel (Char.ofNat 8 :: acc) rest2
          else if e = 'f' then parseJString fuel (Char.ofNat 12 :: acc) rest2
          else if e = 'u' then
            match rest2 with
            | h1 :: h2 :: h3 :: h4 :: rest3 =>
              match hexVal h1, hexVal h2, hexVal h3, hexVal h4 with
              | some a, some b, some c2, some d =>
                let n := 4096 * a + 256 * b + 16 * c2 + d
                if n < 55296 ∨ 57343 < n then
                  parseJString fuel (Char.ofNat n :: acc) rest3
                else Option.none
              | _, _, _, _ => Option.none
            | _ => Option.none
          else Option.none
      else if c.toNat < 32 then Option.none
      else parseJString fuel (c :: acc) rest

/-- An integer literal (floats are outside the model, so a fraction or
exponent makes the parse fail). -/
def parseIntTok (cs : List Char) : Option (Int × List Char) :=
  let negAndRest : Bool × List Char :=
    match cs with
    | '-' :: t => (true, t)
    | _ => (false, cs)
  let (ds, rest) := negAndRest.2.span (·.isDigit)
  if ds.isEmpty then Option.none
  else if 1 < ds.length ∧ ds.headD '1' = '0' then Option.none
  else
    let stop : Bool :=
      match rest with
      | c :: _ => c = '.' ∨ c = 'e' ∨ c = 'E'
      | [] => false
    if stop then Option.none
    else
      let n : Nat := ds.foldl (fun n c => 10 * n + (c.toNat - 48)) 0
      some (if negAndRest.1 then -(n : Int) else (n : Int), rest)

mutual
def parseVal (fuel : Nat) (cs : List Char) : Option (PyVal × List Char) :=
  match fuel with
  | 0 => Option.none
  | fuel + 1 =>
    match skipWs cs with
    | [] => Option.none
    | c :: rest =>
      if c = 'n' then
        match rest with
        | 'u' :: 'l' :: 'l' :: r => some (PyVal.none, r)
        | _ => Option.none
      else if c = 't' then
        match rest with
        | 'r' :: 'u' :: 'e' :: r => some (PyVal.bool true, r)
        | _ => Option.none
      else if c = 'f' then
        match rest with
        | 'a' :: 'l' :: 's' :: 'e' :: r => some (PyVal.bool false, r)
        | _ => Option.none
      else if c = '"' then
        (parseJString rest.length [] rest).map fun p => (PyVal.str p.1, p.2)
      else if c = '[' then
        match skipWs rest with
        | ']' :: r => some (PyVal.list [], r)
        | r2 => (parseElems fuel r2).map fun p => (PyVal.list p.1, p.2)
      else if c = '\x7b' then
        match skipWs rest with
        | '\x7d' :: r => some (PyVal.dict [], r)
        | r2 => (parseMembers fuel r2).map fun p => (PyVal.dict p.1, p.2)
      else (parseIntTok (c :: rest)).map fun p => (PyVal.int p.1, p.2)

def parseElems (fuel : Nat) (cs : List Char) : Option (List PyVal × List Char) :=
  match fuel with
  | 0 => Option.none
  | fuel + 1 =>
    match parseVal fuel cs with
    | Option.none => Option.none
    | some (v, rest) =>
      match skipWs rest with
      | ',' :: r => (parseElems fuel r).map fun p => (v :: p.1, p.2)
      | ']' :: r => some ([v], r)
      | _ => Option.none

def parseMembers (fuel : Nat) (cs : List Char) :
    Option (List (String × PyVal) × List Char) :=
  match fuel with
  | 0 => Option.none
  | fuel + 1 =>
    match skipWs cs with
    | '"' :: rest =>
      match parseJString rest.length [] rest with
      | Option.none => Option.none
      | some (k, r1) =>
        match skipWs r1 with
        | ':' :: r2 =>
          match parseVal fuel r2 with
          | Option.none => Option.none
          | some (v, r3) =>
            match skipWs r3 with
            | ',' :: r4 => (parseMembers fuel r4).map fun p => ((k, v) :: p.1, p.2)
            | '\x7d' :: r4 => some ([(k, v)], r4)
            | _ => Option.none
        | _ => Option.none
    | _ => Option.none
end

/-- `json.loads(s)`: parse one JSON document, allowing surrounding
whitespace, and fail (`json.JSONDecodeError`) on anything else. -/
def json_loads (s : String) : Except PyErr PyVal :=
  let cs := s.toList
  match parseVal (2 * cs.length + 4) cs with
  | some (v, rest) =>
      if (skipWs rest).isEmpty then .ok v else .error .jsonDecodeError
  | Option.none => .error .jsonDecodeError

/-! The semantic cache (`SemanticCache` over ChromaDB).  The embedding
backend and the collection's nearest-neighbor search are external
collaborators, modelled at their interfaces. -/

/-- The dictionary `SemanticCache.get` returns on a hit:
`\x7b"similarity": sim, "payload": payload\x7d`; `payload` is `PyVal.none`
when the stored metadata was absent or failed to parse. -/
structure SemHit where
  similarity : ℚ
  payload : PyVal

/-- One record of the Chroma collection, as `SemanticCache.put` writes it:
id, embedding, document text, and the JSON-serialized payload metadata. -/
structure SemRecord where
  id : String
  embedding : List ℚ
  document : String
  metaPayload : String

/-- The semantic cache's collaborators.  `embed` is the injected
`EmbeddingBackend.embed` (it may raise).  `queryTop1` is modelled from the
spec: the Chroma collection's top-1 nearest-neighbor answer ("the index
itself is responsible for returning the globally nearest neighbor"), absent
from `src/`; it yields the cosine distance and the stored metadata mapping
of the nearest record, or nothing when the collection is empty. -/
structure SemCfg where
  embed : String → Except PyErr (List ℚ)
  queryTop1 : List ℚ → Option (ℚ × Option (List (String × PyVal)))

/-- Modelled from the spec: `hashlib.md5(prompt.encode("utf-8")).hexdigest()`
of the Python standard library is absent from `src/`; the spec requires only
a "stable identifier derived from the query text", so the digest is modelled
as the hex encoding of the text's UTF-8 bytes (deterministic, injective). -/
def md5_hex (s : String) : String :=
  String.join (s.toUTF8.toList.map fun b =>
    String.mk [hexDigit (b.toNat / 16), hexDigit (b.toNat % 16)])

/-- Lines 84-98 of `SemanticCache.get`, after the embedding: no neighbor
means a miss; otherwise similarity is `1 - distance`, a hit needs
`sim >= threshold`, the metadata payload is parsed when it is a string, and
a failed parse leaves the payload as `None` inside a returned hit. -/
def SemanticCache.query_hit (res : Option (ℚ × Option (List (String × PyVal))))
    (threshold : ℚ) : Option SemHit :=
  match res with
  | Option.none => Option.none
  | some (dist, metaOpt) =>
    let sim := 1 - dist
    if threshold ≤ sim then
      let meta := metaOpt.getD []
      let payload : PyVal :=
        match meta.find? (fun p => p.1 == "payload") with
        | Option.none => PyVal.none
        | some (_, PyVal.str s) =>
          match json_loads s with
          | .ok v => v
          | .error _ => PyVal.none
        | some (_, v) => v
      some ⟨sim, payload⟩
    else Option.none

/-- `SemanticCache.get(prompt, threshold)`: embed the prompt (an embedding
failure propagates), query the collection, and post-process. -/
def SemanticCache.get (embed : String → Except PyErr (List ℚ))
    (queryTop1 : List ℚ → Option (ℚ × Option (List (String × PyVal))))
    (prompt : String) (threshold : ℚ) : Except PyErr (Option SemHit) :=
  match embed prompt with
  | .error e => .error e
  | .ok qemb => .ok (SemanticCache.query_hit (queryTop1 qemb) threshold)

/-- Chroma `upsert`: re-insertion with the same id replaces the record. -/
def SemState.upsert (recs : List SemRecord) (id : String) (emb : List ℚ)
    (doc meta : String) : List SemRecord :=
  recs.filter (fun r => r.id != id) ++ [⟨id, emb, doc, meta⟩]

/-- `SemanticCache.put(prompt, payload)`: embed (may raise), then upsert the
record under the md5-derived id with the JSON-serialized payload metadata. -/
def SemanticCache.put (embed : String → Except PyErr (List ℚ))
    (recs : List SemRecord) (prompt : String) (payload : PyVal) :
    Except PyErr (List SemRecord) :=
  match embed prompt with
  | .error e => .error e
  | .ok emb =>
    match default_dumps payload with
    | .error e => .error e
    | .ok ms => .ok (SemState.upsert recs (md5_hex prompt) emb prompt ms)

/-! The decorator `cache_llm_call` and its `wrapper`.  One call of the
wrapped function is a pure state transformer on the two stores; the
instrumentation counts invocations of `func` (the compute spy), of the
embedding backend, and of the collection query. -/

/-- Observable outcome of one `wrapper` call: the returned value or raised
exception, both stores afterwards, and the invocation counters. -/
structure FetchOut where
  result : Except PyErr PyVal
  disk : List DiskRow
  sem : List SemRecord
  compute_calls : Nat
  embed_calls : Nat
  query_calls : Nat

/-- Line 139: `response_from_str(cached) if response_from_str else
json.loads(cached)`. -/
def deserialize (response_from_str : Option (String → Except PyErr PyVal))
    (s : String) : Except PyErr PyVal :=
  match response_from_str with
  | some f => f s
  | Option.none => json_loads s

/-- The default `semantic_prompt_fn`, `lambda m: m[-1]["content"]`: the last
message's content; `IndexError` on an empty message list, `KeyError` when
the last message has no content entry. -/
def default_semantic_prompt_fn (m : List Msg) : Except PyErr String :=
  match m.getLast? with
  | Option.none => .error .indexError
  | some d =>
    match d.find? (fun p => p.1 == "content") with
    | Option.none => .error .keyError
    | some p => .ok p.2

/-- The default `response_to_str`, `lambda x: json.dumps(x, ensure_ascii=False)`. -/
def default_response_to_str (v : PyVal) : Except PyErr String := default_dumps v

/-- Steps 3-5 of the wrapper (lines 151-165): invoke `func`, write the
serialized response into the disk cache, and best-effort insert it into the
semantic cache, swallowing every failure of that last step.  `e0`, `q0` are
the instrumentation counts accumulated by the semantic lookup. -/
def computeAndSave (semantic_cache : Option SemCfg)
    (response_to_str : PyVal → Except PyErr String)
    (semantic_prompt_fn : List Msg → Except PyErr String)
    (func : String → List Msg → Option Extras → Except PyErr PyVal)
    (model : String) (messages : List Msg) (extras : Option Extras)
    (key : String) (disk : List DiskRow) (sem : List SemRecord) (now : ℚ)
    (e0 q0 : Nat) : FetchOut :=
  match func model messages extras with
  | .error e => ⟨.error e, disk, sem, 1, e0, q0⟩
  | .ok resp =>
    match response_to_str resp with
    | .error e => ⟨.error e, disk, sem, 1, e0, q0⟩
    | .ok s =>
      let disk2 := DiskCache.set disk key s now
      match semantic_cache with
      | Option.none => ⟨.ok resp, disk2, sem, 1, e0, q0⟩
      | some cfg =>
        match semantic_prompt_fn messages with
        | .error _ => ⟨.ok resp, disk2, sem, 1, e0, q0⟩
        | .ok q =>
          match json_loads s with
          | .error _ => ⟨.ok resp, disk2, sem, 1, e0, q0⟩
          | .ok p =>
            match SemanticCache.put cfg.embed sem q p with
            | .error _ => ⟨.ok resp, disk2, sem, 1, e0 + 1, q0⟩
            | .ok sem2 => ⟨.ok resp, disk2, sem2, 1, e0 + 1, q0⟩

/-- Step 2 of the wrapper (lines 141-149), reached on a disk miss with a
semantic cache configured: compute the query text and look it up; on a
qualifying hit with a non-`None` payload, write it back to the disk cache
under the exact key (promotion) and return it; otherwise fall through to
compute.  Neither the prompt function nor the embedding is guarded here, so
their exceptions propagate.  The wrapper calls `semantic_cache.get` without
a threshold argument, so the default `0.86` applies. -/
def semanticStage (cfg : SemCfg)
    (response_to_str : PyVal → Except PyErr String)
    (response_from_str : Option (String → Except PyErr PyVal))
    (semantic_prompt_fn : List Msg → Except PyErr String)
    (func : String → List Msg → Option Extras → Except PyErr PyVal)
    (model : String) (messages : List Msg) (extras : Option Extras)
    (key : String) (disk : List DiskRow) (sem : List SemRecord) (now : ℚ) :
    FetchOut :=
  match semantic_prompt_fn messages with
  | .error e => ⟨.error e, disk, sem, 0, 0, 0⟩
  | .ok query_text =>
    match cfg.embed query_text with
    | .error e => ⟨.error e, disk, sem, 0, 1, 0⟩
    | .ok qemb =>
      match SemanticCache.query_hit (cfg.queryTop1 qemb) (86 / 100 : ℚ) with
      | some hit =>
        match hit.payload with
        | PyVal.none =>
          computeAndSave (some cfg) response_to_str semantic_prompt_fn func
            model messages extras key disk sem now 1 1
        | payload =>
          match response_to_str payload with
          | .error e => ⟨.error e, disk, sem, 0, 1, 1⟩
          | .ok s =>
            let res : Except PyErr PyVal :=
              match response_from_str with
              | Option.none => .ok payload
              | some f => f s
            ⟨res, DiskCache.set disk key s now, sem, 0, 1, 1⟩
      | Option.none =>
        computeAndSave (some cfg) response_to_str semantic_prompt_fn func
          model messages extras key disk sem now 1 1

/-- The `wrapper` produced by `cache_llm_call`, lines 132-165: derive the
key (a key derivation failure propagates before any store access), try the
disk cache, then the optional semantic cache, then compute-and-save. -/
def wrapper (disk0 : List DiskRow) (sem0 : List SemRecord)
    (semantic_cache : Option SemCfg)
    (response_to_str : PyVal → Except PyErr String)
    (response_from_str : Option (String → Except PyErr PyVal))
    (key_fn : String → List Msg → Option Extras → Except PyErr String)
    (semantic_prompt_fn : List Msg → Except PyErr String)
    (func : String → List Msg → Option Extras → Except PyErr PyVal)
    (model : String) (messages : List Msg) (extras : Option Extras)
    (now : ℚ) : FetchOut :=
  match key_fn model messages extras with
  | .error e => ⟨.error e, disk0, sem0, 0, 0, 0⟩
  | .ok key =>
    match DiskCache.get disk0 key with
    | some cached => ⟨deserialize response_from_str cached, disk0, sem0, 0, 0, 0⟩
    | Option.none =>
      match semantic_cache with
      | some cfg =>
        semanticStage cfg response_to_str response_from_str semantic_prompt_fn
          func model messages extras key disk0 sem0 now
      | Option.none =>
        computeAndSave Option.none response_to_str semantic_prompt_fn func
          model messages extras key disk0 sem0 now 0 0

/-! Store lemmas. -/

theorem find?_filtered_out (rows : List DiskRow) (k : String) :
    (rows.filter (fun r => r.1 != k)).find? (fun r => r.1 == k) = Option.none := by
  induction rows with
  | nil => rfl
  | cons a t ih =>
    by_cases ha : a.1 = k
    · rw [List.filter_cons_of_neg (by simp [ha])]
      exact ih
    · rw [List.filter_cons_of_pos (by simp [ha]), List.find?_cons_of_neg _ (by simp [ha])]
      exact ih

theorem DiskCache.get_set_self (rows : List DiskRow) (k s : String) (t : ℚ) :
    DiskCache.get (DiskCache.set rows k s t) k = some s := by
  unfold DiskCache.get DiskCache.set
  rw [List.find?_append, find?_filtered_out rows k, Option.none_or,
      List.find?_cons_of_pos _ (by simp)]

theorem DiskCache.get_set_ne (rows : List DiskRow) (k k2 s : String) (t : ℚ)
    (h : k2 ≠ k) : DiskCache.get (DiskCache.set rows k s t) k2 = DiskCache.get rows k2 := by
  unfold DiskCache.get DiskCache.set
  have main : ∀ l : List DiskRow,
      ((l.filter (fun r => r.1 != k)) ++ [(k, s, t)]).find? (fun r => r.1 == k2) =
        l.find? (fun r => r.1 == k2) := by
    intro l
    induction l with
    | nil =>
      simp only [List.filter_nil, List.nil_append]
      rw [List.find?_cons_of_neg _ (by simp [Ne.symm h]), List.find?_nil]
    | cons a tl ih =>
      by_cases ha : a.1 = k
      · rw [List.filter_cons_of_neg (by simp [ha]), ih,
            List.find?_cons_of_neg _ (by simp [ha, Ne.symm h])]
      · rw [List.filter_cons_of_pos (by simp [ha]), List.cons_append]
        by_cases ha2 : a.1 = k2
        · rw [List.find?_cons_of_pos _ (by simp [ha2]),
              List.find?_cons_of_pos _ (by simp [ha2])]
        · rw [List.find?_cons_of_neg _ (by simp [ha2]),
              List.find?_cons_of_neg _ (by simp [ha2]), ih]
  rw [main rows]

theorem set_filter_key (rows : List DiskRow) (k s : String) (t : ℚ) :
    (DiskCache.set rows k s t).filter (fun r => r.1 == k) = [(k, s, t)] := by
  unfold DiskCache.set
  rw [List.filter_append]
  have h1 : (rows.filter (fun r => r.1 != k)).filter (fun r => r.1 == k) = [] := by
    induction rows with
    | nil => rfl
    | cons a tl ih =>
      by_cases ha : a.1 = k
      · rw [List.filter_cons_of_neg (by simp [ha])]
        exact ih
      · rw [List.filter_cons_of_pos (by simp [ha]),
            List.filter_cons_of_neg (by simp [ha])]
        exact ih
  rw [h1, List.nil_append, List.filter_cons_of_pos (by simp), List.filter_nil]

/-- C7: for every key and payloads A and B, `DiskCache.set(key, A)` then
`DiskCache.set(key, B)` leaves `DiskCache.get(key) = B`: the second set
replaces the existing row's payload and refreshes its timestamp, without
duplication (exactly one row carries the key afterwards, holding B and the
second timestamp), and rows under other keys are untouched. -/
theorem claim_C7_idempotent_upsert (rows : List DiskRow) (k A B : String) (tA tB : ℚ) :
    DiskCache.get (DiskCache.set (DiskCache.set rows k A tA) k B tB) k = some B ∧
    (DiskCache.set (DiskCache.set rows k A tA) k B tB).filter (fun r => r.1 == k) =
      [(k, B, tB)] ∧
    ∀ k2, k2 ≠ k →
      DiskCache.get (DiskCache.set (DiskCache.set rows k A tA) k B tB) k2 =
        DiskCache.get rows k2 :=
  ⟨DiskCache.get_set_self _ _ _ _,
   set_filter_key _ _ _ _,
   fun k2 h => by
     rw [DiskCache.get_set_ne _ _ _ _ _ h, DiskCache.get_set_ne _ _ _ _ _ h]⟩

/-- Witness for C7 at a concrete store. -/
theorem claim_C7_idempotent_upsert_witness :
    DiskCache.get (DiskCache.set (DiskCache.set [("other", "x", 0)] "k" "A" 1) "k" "B" 2) "k" =
      some "B" ∧
    (DiskCache.set (DiskCache.set [("other", "x", 0)] "k" "A" 1) "k" "B" 2).filter
        (fun r => r.1 == "k") = [("k", "B", 2)] ∧
    DiskCache.get (DiskCache.set (DiskCache.set [("other", "x", 0)] "k" "A" 1) "k" "B" 2)
        "other" = DiskCache.get [("other", "x", 0)] "other" :=
  ⟨(claim_C7_idempotent_upsert [("other", "x", 0)] "k" "A" "B" 1 2).1,
   (claim_C7_idempotent_upsert [("other", "x", 0)] "k" "A" "B" 1 2).2.1,
   (claim_C7_idempotent_upsert [("other", "x", 0)] "k" "A" "B" 1 2).2.2 "other" (by decide)⟩

/-! Canonicalization lemmas for `sort_keys=True`. -/

/-- Two lists of key/value pairs that are permutations of each other, both
weakly sorted by key, with no duplicate keys, are equal. -/
theorem eq_of_perm_of_sortedKey {β : Type} :
    ∀ l1 l2 : List (String × β), l1.Perm l2 → l1.Sorted keyLe → l2.Sorted keyLe →
      (l1.map Prod.fst).Nodup → l1 = l2 := by
  intro l1
  induction l1 with
  | nil =>
    intro l2 hp _ _ _
    exact hp.nil_eq
  | cons a t1 ih =>
    intro l2 hp hs1 hs2 hnd
    cases l2 with
    | nil => exact absurd hp.symm.nil_eq (by simp)
    | cons b t2 =>
      have hab : a = b := by
        by_contra hne
        have ha2 : a ∈ t2 := by
          have := hp.subset (List.mem_cons_self a t1)
          cases List.mem_cons.mp this with
          | inl h => exact absurd h hne
          | inr h => exact h
        have hb1 : b ∈ t1 := by
          have := hp.symm.subset (List.mem_cons_self b t2)
          cases List.mem_cons.mp this with
          | inl h => exact absurd h.symm hne
          | inr h => exact h
        have h1 : a.1 ≤ b.1 := List.rel_of_sorted_cons hs1 b hb1
        have h2 : b.1 ≤ a.1 := List.rel_of_sorted_cons hs2 a ha2
        have heq : a.1 = b.1 := le_antisymm h1 h2
        have : a.1 ∈ t1.map Prod.fst := heq ▸ List.mem_map_of_mem Prod.fst hb1
        rw [List.map_cons] at hnd
        exact (List.nodup_cons.mp hnd).1 this
      subst hab
      have htail : t1 = t2 :=
        ih t2 hp.cons_inv (List.sorted_cons.mp hs1).2 (List.sorted_cons.mp hs2).2
          (by rw [List.map_cons] at hnd; exact (List.nodup_cons.mp hnd).2)
      rw [htail]

/-- Sorting by key is invariant under permutation when keys are unique. -/
theorem sortPairs_eq_of_perm {β : Type} (l1 l2 : List (String × β))
    (hp : l1.Perm l2) (hnd : (l1.map Prod.fst).Nodup) :
    sortPairs l1 = sortPairs l2 := by
  apply eq_of_perm_of_sortedKey
  · exact (List.perm_insertionSort keyLe l1).trans
      (hp.trans (List.perm_insertionSort keyLe l2).symm)
  · exact List.sorted_insertionSort keyLe l1
  · exact List.sorted_insertionSort keyLe l2
  · exact ((List.perm_insertionSort keyLe l1).map Prod.fst).nodup_iff.mpr hnd

/-! Serializability characterizes `json.dumps` success. -/

mutual
theorem dumpsVal_isOk (sk : Bool) (isep ksep : String) (v : PyVal) :
    (dumpsVal sk isep ksep v).isOk = serializableB v := by
  cases v with
  | none => rfl
  | bool b => rfl
  | int n => rfl
  | str s => rfl
  | obj t => rfl
  | list xs =>
    have h := dumpsList_isOk sk isep ksep xs
    cases hd : dumpsList sk isep ksep xs with
    | ok parts =>
      rw [hd] at h
      simp [dumpsVal, hd, serializableB, ← h, Except.isOk, Except.toBool, Bind.bind, Except.bind]
    | error e =>
      rw [hd] at h
      simp [dumpsVal, hd, serializableB, ← h, Except.isOk, Except.toBool, Bind.bind, Except.bind]
  | dict kvs =>
    have h := dumpsPairs_isOk sk isep ksep kvs
    cases hd : dumpsPairs sk isep ksep kvs with
    | ok pairs =>
      rw [hd] at h
      simp [dumpsVal, hd, serializableB, ← h, Except.isOk, Except.toBool, Bind.bind, Except.bind]
    | error e =>
      rw [hd] at h
      simp [dumpsVal, hd, serializableB, ← h, Except.isOk, Except.toBool, Bind.bind, Except.bind]

theorem dumpsList_isOk (sk : Bool) (isep ksep : String) (xs : List PyVal) :
    (dumpsList sk isep ksep xs).isOk = serializableList xs := by
  cases xs with
  | nil => rfl
  | cons x t =>
    have hx := dumpsVal_isOk sk isep ksep x
    have ht := dumpsList_isOk sk isep ksep t
    cases hd : dumpsVal sk isep ksep x with
    | error e =>
      rw [hd] at hx
      simp [dumpsList, hd, serializableList, ← hx, Except.isOk, Except.toBool, Bind.bind, Except.bind]
    | ok s =>
      rw [hd] at hx
      cases hdt : dumpsList sk isep ksep t with
      | error e =>
        rw [hdt] at ht
        simp [dumpsList, hd, hdt, serializableList, ← hx, ← ht, Except.isOk, Except.toBool, Bind.bind, Except.bind]
      | ok r =>
        rw [hdt] at ht
        simp [dumpsList, hd, hdt, serializableList, ← hx, ← ht, Except.isOk, Except.toBool, Bind.bind, Except.bind]

theorem dumpsPairs_isOk (sk : Bool) (isep ksep : String) (l : List (String × PyVal)) :
    (dumpsPairs sk isep ksep l).isOk = serializablePairs l := by
  cases l with
  | nil => rfl
  | cons p t =>
    have hx := dumpsVal_isOk sk isep ksep p.2
    have ht := dumpsPairs_isOk sk isep ksep t
    cases hd : dumpsVal sk isep ksep p.2 with
    | error e =>
      rw [hd] at hx
      simp [dumpsPairs, hd, serializablePairs, ← hx, Except.isOk, Except.toBool, Bind.bind, Except.bind]
    | ok s =>
      rw [hd] at hx
      cases hdt : dumpsPairs sk isep ksep t with
      | error e =>
        rw [hdt] at ht
        simp [dumpsPairs, hd, hdt, serializablePairs, ← hx, ← ht, Except.isOk, Except.toBool, Bind.bind, Except.bind]
      | ok r =>
        rw [hdt] at ht
        simp [dumpsPairs, hd, hdt, serializablePairs, ← hx, ← ht, Except.isOk, Except.toBool, Bind.bind, Except.bind]
end

theorem dumpsVal_ok_of_serializable (sk : Bool) (isep ksep : String) (v : PyVal)
    (hv : serializableB v = true) :
    dumpsVal sk isep ksep v = .ok (dumpStr sk isep ksep v) := by
  have h := dumpsVal_isOk sk isep ksep v
  rw [hv] at h
  cases hd : dumpsVal sk isep ksep v with
  | ok s => simp [dumpStr, hd]
  | error e =>
    rw [hd] at h
    simp [Except.isOk, Except.toBool] at h

mutual
theorem dumpsVal_err (sk : Bool) (isep ksep : String) (v : PyVal)
    (hv : serializableB v = false) :
    dumpsVal sk isep ksep v = .error .typeError := by
  cases v with
  | none => simp [serializableB] at hv
  | bool b => simp [serializableB] at hv
  | int n => simp [serializableB] at hv
  | str s => simp [serializableB] at hv
  | obj t => rfl
  | list xs =>
    have hx : serializableList xs = false := by simpa [serializableB] using hv
    simp [dumpsVal, dumpsList_err sk isep ksep xs hx, Bind.bind, Except.bind]
  | dict kvs =>
    have hx : serializablePairs kvs = false := by simpa [serializableB] using hv
    simp [dumpsVal, dumpsPairs_err sk isep ksep kvs hx, Bind.bind, Except.bind]

theorem dumpsList_err (sk : Bool) (isep ksep : String) (xs : List PyVal)
    (h : serializableList xs = false) :
    dumpsList sk isep ksep xs = .error .typeError := by
  cases xs with
  | nil => simp [serializableList] at h
  | cons x t =>
    cases hx : serializableB x with
    | false =>
      simp [dumpsList, dumpsVal_err sk isep ksep x hx, Bind.bind, Except.bind]
    | true =>
      have ht : serializableList t = false := by
        rw [serializableList, hx] at h
        simpa using h
      simp [dumpsList, dumpsVal_ok_of_serializable sk isep ksep x hx,
            dumpsList_err sk isep ksep t ht, Bind.bind, Except.bind]

theorem dumpsPairs_err (sk : Bool) (isep ksep : String) (l : List (String × PyVal))
    (h : serializablePairs l = false) :
    dumpsPairs sk isep ksep l = .error .typeError := by
  cases l with
  | nil => simp [serializablePairs] at h
  | cons p t =>
    cases hx : serializableB p.2 with
    | false =>
      simp [dumpsPairs, dumpsVal_err sk isep ksep p.2 hx, Bind.bind, Except.bind]
    | true =>
      have ht : serializablePairs t = false := by
        rw [serializablePairs, hx] at h
        simpa using h
      simp [dumpsPairs, dumpsVal_ok_of_serializable sk isep ksep p.2 hx,
            dumpsPairs_err sk isep ksep t ht, Bind.bind, Except.bind]
end

theorem serializablePairs_eq_all (l : List (String × PyVal)) :
    serializablePairs l = l.all fun p => serializableB p.2 := by
  induction l with
  | nil => rfl
  | cons p t ih => simp [serializablePairs, ih, List.all_cons]

theorem dumpsPairs_ok_of_serializable (sk : Bool) (isep ksep : String) :
    ∀ l : List (String × PyVal), serializablePairs l = true →
      dumpsPairs sk isep ksep l =
        .ok (l.map fun p => (p.1, dumpStr sk isep ksep p.2)) := by
  intro l
  induction l with
  | nil => intro _; rfl
  | cons p t ih =>
    intro h
    rw [serializablePairs, Bool.and_eq_true] at h
    simp [dumpsPairs, dumpsVal_ok_of_serializable sk isep ksep p.2 h.1, ih h.2,
          Bind.bind, Except.bind]

/-- Under `sort_keys=True`, serializing a dictionary is invariant under
permutation of its entries when keys are unique. -/
theorem dumpsVal_dict_perm (isep ksep : String) (l1 l2 : List (String × PyVal))
    (hp : l1.Perm l2) (hnd : (l1.map Prod.fst).Nodup) :
    dumpsVal true isep ksep (.dict l1) = dumpsVal true isep ksep (.dict l2) := by
  by_cases hs : serializablePairs l1 = true
  · have hs2 : serializablePairs l2 = true := by
      rw [serializablePairs_eq_all, List.all_eq_true] at hs ⊢
      intro p hpm
      exact hs p (hp.symm.subset hpm)
    have hsort :
        sortPairs (l1.map fun p => (p.1, dumpStr true isep ksep p.2)) =
          sortPairs (l2.map fun p => (p.1, dumpStr true isep ksep p.2)) := by
      apply sortPairs_eq_of_perm
      · exact hp.map _
      · rw [List.map_map]
        have hcomp :
            (Prod.fst ∘ fun p : String × PyVal => (p.1, dumpStr true isep ksep p.2)) =
              Prod.fst := funext fun p => rfl
        rw [hcomp]
        exact hnd
    simp [dumpsVal, dumpsPairs_ok_of_serializable true isep ksep l1 hs,
          dumpsPairs_ok_of_serializable true isep ksep l2 hs2, hsort,
          Bind.bind, Except.bind]
  · have hs1 : serializablePairs l1 = false := by simpa using hs
    have hs2 : serializablePairs l2 = false := by
      rw [serializablePairs_eq_all] at hs1 ⊢
      rw [← Bool.not_eq_true] at hs1 ⊢
      rw [List.all_eq_true] at hs1 ⊢
      intro hall
      exact hs1 fun p hpm => hall p (hp.subset hpm)
    simp [dumpsVal, dumpsPairs_err true isep ksep l1 hs1,
          dumpsPairs_err true isep ksep l2 hs2, Bind.bind, Except.bind]

/-- Entrywise congruence for serialized dictionaries. -/
theorem dumpsPairs_congr (sk : Bool) (isep ksep : String)
    (l1 l2 : List (String × PyVal))
    (h : List.Forall₂
      (fun p q => p.1 = q.1 ∧ dumpsVal sk isep ksep p.2 = dumpsVal sk isep ksep q.2)
      l1 l2) :
    dumpsPairs sk isep ksep l1 = dumpsPairs sk isep ksep l2 := by
  induction h with
  | nil => rfl
  | cons hpq htail ih => simp [dumpsPairs, hpq.1, hpq.2, ih]

/-- Elementwise congruence for serialized lists. -/
theorem dumpsList_congr (sk : Bool) (isep ksep : String) (xs ys : List PyVal)
    (h : List.Forall₂
      (fun a b => dumpsVal sk isep ksep a = dumpsVal sk isep ksep b) xs ys) :
    dumpsList sk isep ksep xs = dumpsList sk isep ksep ys := by
  induction h with
  | nil => rfl
  | cons hab htail ih => simp [dumpsList, hab, ih]

/-- Congruence of `make_cache_key` along equal serializations of the
messages and extras components. -/
theorem make_cache_key_congr (model : String) (msgs1 msgs2 : List Msg)
    (ex1 ex2 : Option Extras)
    (hM : dumpsVal true "," ":" (.list (msgs1.map msgVal)) =
          dumpsVal true "," ":" (.list (msgs2.map msgVal)))
    (hE : dumpsVal true "," ":" (.dict (ex1.getD [])) =
          dumpsVal true "," ":" (.dict (ex2.getD []))) :
    make_cache_key model msgs1 ex1 = make_cache_key model msgs2 ex2 := by
  have h3 :
      dumpsPairs true "," ":"
        [("model", .str model), ("messages", .list (msgs1.map msgVal)),
         ("extras", .dict (ex1.getD []))] =
      dumpsPairs true "," ":"
        [("model", .str model), ("messages", .list (msgs2.map msgVal)),
         ("extras", .dict (ex2.getD []))] :=
    dumpsPairs_congr true "," ":" _ _
      (List.Forall₂.cons ⟨rfl, rfl⟩
        (List.Forall₂.cons ⟨rfl, hM⟩
          (List.Forall₂.cons ⟨rfl, hE⟩ List.Forall₂.nil)))
  simp only [make_cache_key, stable_dumps, dumpsVal, h3]

/-- C3: for every model string, message sequence and extras mapping, the
derived fingerprint is unchanged by reordering of mapping entries: extras
mappings that are permutations of each other (with unique keys) give the
same key; message dictionaries permuted entrywise (with unique keys) give
the same key; and `extras=None` and an empty extras mapping give the
identical key. -/
theorem claim_C3_key_determinism (model : String) (msgs : List Msg) :
    (∀ ex1 ex2 : Extras, ex1.Perm ex2 → (ex1.map Prod.fst).Nodup →
        make_cache_key model msgs (some ex1) = make_cache_key model msgs (some ex2)) ∧
    (∀ msgs2 : List Msg, List.Forall₂ (fun d1 d2 => d1.Perm d2) msgs msgs2 →
        (∀ d ∈ msgs, (d.map Prod.fst).Nodup) →
        ∀ ex : Option Extras,
          make_cache_key model msgs ex = make_cache_key model msgs2 ex) ∧
    make_cache_key model msgs Option.none = make_cache_key model msgs (some []) := by
  refine ⟨?_, ?_, rfl⟩
  · intro ex1 ex2 hperm hnd
    exact make_cache_key_congr model msgs msgs (some ex1) (some ex2) rfl
      (dumpsVal_dict_perm "," ":" ex1 ex2 hperm hnd)
  · intro msgs2 hf hnd ex
    apply make_cache_key_congr model msgs msgs2 ex ex ?_ rfl
    have key : ∀ a b : List Msg, List.Forall₂ (fun d1 d2 => d1.Perm d2) a b →
        (∀ d ∈ a, (d.map Prod.fst).Nodup) →
        List.Forall₂ (fun x y => dumpsVal true "," ":" x = dumpsVal true "," ":" y)
          (a.map msgVal) (b.map msgVal) := by
      intro a b hab
      induction hab with
      | nil => intro _; exact List.Forall₂.nil
      | @cons d1 d2 t1 t2 hd12 htl ih =>
        intro hnodup
        rw [List.map_cons, List.map_cons]
        refine List.Forall₂.cons ?_ (ih fun d hm => hnodup d (List.mem_cons_of_mem _ hm))
        apply dumpsVal_dict_perm
        · exact hd12.map _
        · rw [List.map_map]
          have hcomp :
              (Prod.fst ∘ fun p : String × String => (p.1, PyVal.str p.2)) = Prod.fst :=
            funext fun p => rfl
          rw [hcomp]
          exact hnodup d1 (List.mem_cons_self _ _)
    have hMl := key msgs msgs2 hf hnd
    simp only [dumpsVal, dumpsList_congr true "," ":" _ _ hMl]

/-- Witness for C3: a concrete extras permutation, a concrete message-entry
permutation, and `None` versus the empty mapping. -/
theorem claim_C3_key_determinism_witness :
    make_cache_key "m" [[("role", "user"), ("content", "hi")]]
        (some [("a", PyVal.int 1), ("b", PyVal.bool true)]) =
      make_cache_key "m" [[("role", "user"), ("content", "hi")]]
        (some [("b", PyVal.bool true), ("a", PyVal.int 1)]) ∧
    make_cache_key "m" [[("role", "user"), ("content", "hi")]] Option.none =
      make_cache_key "m" [[("content", "hi"), ("role", "user")]] Option.none ∧
    make_cache_key "m" [[("role", "user"), ("content", "hi")]] Option.none =
      make_cache_key "m" [[("role", "user"), ("content", "hi")]] (some []) := by
  refine ⟨?_, ?_, ?_⟩
  · exact (claim_C3_key_determinism "m" [[("role", "user"), ("content", "hi")]]).1
      [("a", PyVal.int 1), ("b", PyVal.bool true)]
      [("b", PyVal.bool true), ("a", PyVal.int 1)]
      (List.Perm.swap ("b", PyVal.bool true) ("a", PyVal.int 1) [])
      (by simp)
  · exact (claim_C3_key_determinism "m" [[("role", "user"), ("content", "hi")]]).2.1
      [[("content", "hi"), ("role", "user")]]
      (List.Forall₂.cons (List.Perm.swap ("content", "hi") ("role", "user") [])
        List.Forall₂.nil)
      (by intro d hd; simp at hd; subst hd; simp)
      Option.none
  · exact (claim_C3_key_determinism "m" [[("role", "user"), ("content", "hi")]]).2.2

/-! Serializability of message material. -/

theorem serializable_msgVal (d : Msg) : serializableB (msgVal d) = true := by
  unfold msgVal
  show serializablePairs (d.map fun p => (p.1, PyVal.str p.2)) = true
  induction d with
  | nil => rfl
  | cons p t ih => simpa [serializablePairs, serializableB] using ih

theorem serializable_msgs (msgs : List Msg) :
    serializableList (msgs.map msgVal) = true := by
  induction msgs with
  | nil => rfl
  | cons d t ih => simpa [serializableList, serializable_msgVal] using ih

/-- C8: `make_cache_key` succeeds on every JSON-serializable input, and
fails with a `TypeError` when the extras mapping holds a non-serializable
value; the failure surfaces from the wrapper before any store access: the
wrapper returns the error with both stores untouched and zero compute,
embedding or query invocations. -/
theorem claim_C8_key_failure_mode (model : String) (msgs : List Msg)
    (extras : Option Extras) :
    (serializablePairs (extras.getD []) = true →
      ∃ k, make_cache_key model msgs extras = .ok k) ∧
    (serializablePairs (extras.getD []) = false →
      make_cache_key model msgs extras = .error .typeError ∧
      ∀ (disk0 : List DiskRow) (sem0 : List SemRecord) (sc : Option SemCfg)
        (r2s : PyVal → Except PyErr String)
        (rfs : Option (String → Except PyErr PyVal))
        (spf : List Msg → Except PyErr String)
        (func : String → List Msg → Option Extras → Except PyErr PyVal) (now : ℚ),
        wrapper disk0 sem0 sc r2s rfs make_cache_key spf func model msgs extras now =
          ⟨.error .typeError, disk0, sem0, 0, 0, 0⟩) := by
  have hpay : serializableB
      (.dict [("model", .str model), ("messages", .list (msgs.map msgVal)),
              ("extras", .dict (extras.getD []))]) =
      serializablePairs (extras.getD []) := by
    show serializablePairs _ = _
    simp [serializablePairs, serializableB, serializable_msgs msgs]
  constructor
  · intro h
    rw [h] at hpay
    refine ⟨sha256_hexdigest (dumpStr true "," ":"
      (.dict [("model", .str model), ("messages", .list (msgs.map msgVal)),
              ("extras", .dict (extras.getD []))])), ?_⟩
    simp only [make_cache_key, stable_dumps,
      dumpsVal_ok_of_serializable true "," ":" _ hpay, Bind.bind, Except.bind,
      pure, Except.pure]
  · intro h
    rw [h] at hpay
    have hmck : make_cache_key model msgs extras = .error .typeError := by
      simp only [make_cache_key, stable_dumps, dumpsVal_err true "," ":" _ hpay,
        Bind.bind, Except.bind]
    refine ⟨hmck, ?_⟩
    intro disk0 sem0 sc r2s rfs spf func now
    simp [wrapper, hmck]

/-- Witness for C8: a serializable and a non-serializable concrete input. -/
theorem claim_C8_key_failure_mode_witness :
    (∃ k, make_cache_key "m" [[("role", "user")]] (some [("t", PyVal.int 0)]) = .ok k) ∧
    make_cache_key "m" [[("role", "user")]] (some [("x", PyVal.obj "object")]) =
      .error .typeError ∧
    wrapper [] [] Option.none default_response_to_str Option.none make_cache_key
        default_semantic_prompt_fn (fun _ _ _ => .ok PyVal.none) "m"
        [[("role", "user")]] (some [("x", PyVal.obj "object")]) 0 =
      ⟨.error .typeError, [], [], 0, 0, 0⟩ := by
  have h1 := (claim_C8_key_failure_mode "m" [[("role", "user")]]
    (some [("t", PyVal.int 0)])).1 (by simp [serializablePairs, serializableB])
  have h2 := (claim_C8_key_failure_mode "m" [[("role", "user")]]
    (some [("x", PyVal.obj "object")])).2 (by simp [serializablePairs, serializableB])
  exact ⟨h1, h2.1, h2.2 [] [] Option.none default_response_to_str Option.none
    default_semantic_prompt_fn (fun _ _ _ => .ok PyVal.none) 0⟩

/-- C1: whenever the derived key is present in the disk cache, the wrapper
returns the deserialization of the stored payload immediately: `func` is
not invoked, the embedding backend and the collection are not consulted
(zero invocations each), and both stores are unchanged — for every semantic
configuration, including one holding a qualifying neighbor. -/
theorem claim_C1_exact_hit_precedence
    (disk0 : List DiskRow) (sem0 : List SemRecord) (sc : Option SemCfg)
    (r2s : PyVal → Except PyErr String)
    (rfs : Option (String → Except PyErr PyVal))
    (key_fn : String → List Msg → Option Extras → Except PyErr String)
    (spf : List Msg → Except PyErr String)
    (func : String → List Msg → Option Extras → Except PyErr PyVal)
    (model : String) (messages : List Msg) (extras : Option Extras) (now : ℚ)
    (key cached : String)
    (hkey : key_fn model messages extras = .ok key)
    (hhit : DiskCache.get disk0 key = some cached) :
    wrapper disk0 sem0 sc r2s rfs key_fn spf func model messages extras now =
      ⟨deserialize rfs cached, disk0, sem0, 0, 0, 0⟩ := by
  simp [wrapper, hkey, hhit]

/-- Witness for C1: a concrete store with an exact entry and a semantic
configuration holding a qualifying neighbor (distance 0, so similarity 1 at
threshold 0.86) for the same request. -/
theorem claim_C1_exact_hit_precedence_witness :
    SemanticCache.query_hit (some ((0 : ℚ), some [("payload", PyVal.int 7)]))
        (86 / 100 : ℚ) = some ⟨1 - 0, PyVal.int 7⟩ ∧
    wrapper [("K", "PAY", 0)] []
        (some ⟨fun _ => .ok [(1 : ℚ)], fun _ => some ((0 : ℚ), some [("payload", PyVal.int 7)])⟩)
        default_response_to_str (some fun s => .ok (PyVal.str s))
        (fun _ _ _ => .ok "K") default_semantic_prompt_fn
        (fun _ _ _ => .ok (PyVal.str "computed")) "m"
        [[("role", "user"), ("content", "hi")]] Option.none 5 =
      ⟨.ok (PyVal.str "PAY"), [("K", "PAY", 0)], [], 0, 0, 0⟩ := by
  constructor
  · have hle : (86 / 100 : ℚ) ≤ 1 - 0 := by norm_num
    simp only [SemanticCache.query_hit, hle, if_true]
    rfl
  · exact claim_C1_exact_hit_precedence [("K", "PAY", 0)] []
      (some ⟨fun _ => .ok [(1 : ℚ)], fun _ => some ((0 : ℚ), some [("payload", PyVal.int 7)])⟩)
      default_response_to_str (some fun s => .ok (PyVal.str s))
      (fun _ _ _ => .ok "K") default_semantic_prompt_fn
      (fun _ _ _ => .ok (PyVal.str "computed")) "m"
      [[("role", "user"), ("content", "hi")]] Option.none 5 "K" "PAY" rfl rfl

/-- On the compute path, a successful `func` and serialization always yield
the fresh response and the disk write-back; the semantic write-back is
best-effort, so the resulting semantic store and embedding count vary. -/
theorem computeAndSave_ok (sc : Option SemCfg)
    (r2s : PyVal → Except PyErr String)
    (spf : List Msg → Except PyErr String)
    (func : String → List Msg → Option Extras → Except PyErr PyVal)
    (model : String) (messages : List Msg) (extras : Option Extras)
    (key : String) (disk : List DiskRow) (sem : List SemRecord) (now : ℚ)
    (e0 q0 : Nat) (resp : PyVal) (s : String)
    (hfunc : func model messages extras = .ok resp)
    (hser : r2s resp = .ok s) :
    ∃ sem2 ec,
      computeAndSave sc r2s spf func model messages extras key disk sem now e0 q0 =
        ⟨.ok resp, DiskCache.set disk key s now, sem2, 1, ec, q0⟩ := by
  unfold computeAndSave
  simp only [hfunc, hser]
  cases sc with
  | none => exact ⟨sem, e0, rfl⟩
  | some cfg =>
    cases hspf : spf messages with
    | error e => exact ⟨sem, e0, by simp [hspf]⟩
    | ok q =>
      cases hjl : json_loads s with
      | error e => exact ⟨sem, e0, by simp [hspf, hjl]⟩
      | ok p =>
        cases hput : SemanticCache.put cfg.embed sem q p with
        | error e => exact ⟨sem, e0 + 1, by simp [hspf, hjl, hput]⟩
        | ok sem2 => exact ⟨sem2, e0 + 1, by simp [hspf, hjl, hput]⟩

/-- C2: on a disk miss, a semantic neighbor with similarity at or above the
threshold whose payload is usable makes the wrapper return that payload and
write it into the disk cache under the derived key (promotion, no compute);
a second call with identical request material is then served by the disk
cache with zero compute, embedding and query invocations. -/
theorem claim_C2_promotion
    (disk0 : List DiskRow) (sem0 : List SemRecord) (cfg : SemCfg)
    (r2s : PyVal → Except PyErr String)
    (rfs : Option (String → Except PyErr PyVal))
    (key_fn : String → List Msg → Option Extras → Except PyErr String)
    (spf : List Msg → Except PyErr String)
    (func : String → List Msg → Option Extras → Except PyErr PyVal)
    (model : String) (messages : List Msg) (extras : Option Extras) (now now2 : ℚ)
    (key q : String) (sim : ℚ) (p : PyVal) (s : String)
    (hkey : key_fn model messages extras = .ok key)
    (hmiss : DiskCache.get disk0 key = Option.none)
    (hq : spf messages = .ok q)
    (hget : SemanticCache.get cfg.embed cfg.queryTop1 q (86 / 100 : ℚ) =
      .ok (some ⟨sim, p⟩))
    (hp : p ≠ PyVal.none)
    (hser : r2s p = .ok s)
    (hdeser : deserialize rfs s = .ok p) :
    (wrapper disk0 sem0 (some cfg) r2s rfs key_fn spf func model messages extras now =
      ⟨.ok p, DiskCache.set disk0 key s now, sem0, 0, 1, 1⟩) ∧
    (wrapper (DiskCache.set disk0 key s now) sem0 (some cfg) r2s rfs key_fn spf func
        model messages extras now2 =
      ⟨.ok p, DiskCache.set disk0 key s now, sem0, 0, 0, 0⟩) := by
  unfold SemanticCache.get at hget
  cases hemb : cfg.embed q with
  | error e =>
    rw [hemb] at hget
    simp at hget
  | ok qemb =>
    rw [hemb] at hget
    have hqh : SemanticCache.query_hit (cfg.queryTop1 qemb) (86 / 100 : ℚ) =
        some ⟨sim, p⟩ := Except.ok.inj hget
    constructor
    · simp only [wrapper, hkey, hmiss, semanticStage, hq, hemb, hqh]
      cases p with
      | none => exact absurd rfl hp
      | bool b =>
        simp only [hser]
        cases rfs with
        | none => rfl
        | some f => simp only [deserialize] at hdeser; simp [hdeser]
      | int n =>
        simp only [hser]
        cases rfs with
        | none => rfl
        | some f => simp only [deserialize] at hdeser; simp [hdeser]
      | str t =>
        simp only [hser]
        cases rfs with
        | none => rfl
        | some f => simp only [deserialize] at hdeser; simp [hdeser]
      | list xs =>
        simp only [hser]
        cases rfs with
        | none => rfl
        | some f => simp only [deserialize] at hdeser; simp [hdeser]
      | dict kvs =>
        simp only [hser]
        cases rfs with
        | none => rfl
        | some f => simp only [deserialize] at hdeser; simp [hdeser]
      | obj t =>
        simp only [hser]
        cases rfs with
        | none => rfl
        | some f => simp only [deserialize] at hdeser; simp [hdeser]
    · simp only [wrapper, hkey, DiskCache.get_set_self, hdeser]

/-- Witness for C2 at a concrete semantic store: distance 0 (similarity 1),
payload 7; the compute spy errors, showing it is never consulted. -/
theorem claim_C2_promotion_witness :
    wrapper [] []
        (some ⟨fun _ => .ok [(1 : ℚ)],
               fun _ => some ((0 : ℚ), some [("payload", PyVal.int 7)])⟩)
        (fun _ => .ok "PAY") (some fun _ => .ok (PyVal.int 7))
        (fun _ _ _ => .ok "K") (fun _ => .ok "q")
        (fun _ _ _ => .error (.exc "SHOULD_NOT_RUN")) "m"
        [[("role", "user"), ("content", "hi")]] Option.none 3 =
      ⟨.ok (PyVal.int 7), DiskCache.set [] "K" "PAY" 3, [], 0, 1, 1⟩ ∧
    wrapper (DiskCache.set [] "K" "PAY" 3) []
        (some ⟨fun _ => .ok [(1 : ℚ)],
               fun _ => some ((0 : ℚ), some [("payload", PyVal.int 7)])⟩)
        (fun _ => .ok "PAY") (some fun _ => .ok (PyVal.int 7))
        (fun _ _ _ => .ok "K") (fun _ => .ok "q")
        (fun _ _ _ => .error (.exc "SHOULD_NOT_RUN")) "m"
        [[("role", "user"), ("content", "hi")]] Option.none 4 =
      ⟨.ok (PyVal.int 7), DiskCache.set [] "K" "PAY" 3, [], 0, 0, 0⟩ := by
  have hle : (86 / 100 : ℚ) ≤ 1 - 0 := by norm_num
  have hget : SemanticCache.get (fun _ => .ok [(1 : ℚ)])
      (fun _ => some ((0 : ℚ), some [("payload", PyVal.int 7)])) "q" (86 / 100 : ℚ) =
      .ok (some ⟨1 - 0, PyVal.int 7⟩) := by
    simp only [SemanticCache.get, SemanticCache.query_hit, hle, if_true]
    rfl
  exact claim_C2_promotion [] []
    ⟨fun _ => .ok [(1 : ℚ)], fun _ => some ((0 : ℚ), some [("payload", PyVal.int 7)])⟩
    (fun _ => .ok "PAY") (some fun _ => .ok (PyVal.int 7))
    (fun _ _ _ => .ok "K") (fun _ => .ok "q")
    (fun _ _ _ => .error (.exc "SHOULD_NOT_RUN")) "m"
    [[("role", "user"), ("content", "hi")]] Option.none 3 4 "K" "q" (1 - 0)
    (PyVal.int 7) "PAY" rfl rfl rfl hget (by simp) rfl rfl

/-- C4 counterexample: with a semantic cache configured, an embedding
backend raising on every call, and an exact-store miss, `fetch` raises the
embedding error instead of degrading to `compute`: the result is that
error, `compute` is never invoked, and the claim that `fetch` "does not
raise" fails at this input. -/
theorem claim_C4_degradation_counterexample :
    wrapper [] []
        (some ⟨fun _ => .error (.exc "EmbeddingUnavailable"), fun _ => Option.none⟩)
        default_response_to_str Option.none (fun _ _ _ => .ok "K")
        default_semantic_prompt_fn (fun _ _ _ => .ok (PyVal.str "computed"))
        "m" [[("role", "user"), ("content", "hi")]] Option.none 0 =
      ⟨.error (.exc "EmbeddingUnavailable"), [], [], 0, 1, 0⟩ := rfl

/-- C4 amended: with the embedding backend raising on every call, a
semantic cache configured and an exact-store miss, the wrapper propagates
the embedding failure out of `fetch`: it returns that error, never invokes
`compute`, and leaves both stores unchanged (the unguarded lookup at lines
143-144 raises; only the post-compute write-back swallows embedding
failures). -/
theorem claim_C4_degradation_amended
    (disk0 : List DiskRow) (sem0 : List SemRecord) (cfg : SemCfg)
    (r2s : PyVal → Except PyErr String)
    (rfs : Option (String → Except PyErr PyVal))
    (key_fn : String → List Msg → Option Extras → Except PyErr String)
    (spf : List Msg → Except PyErr String)
    (func : String → List Msg → Option Extras → Except PyErr PyVal)
    (model : String) (messages : List Msg) (extras : Option Extras) (now : ℚ)
    (key q : String) (e : PyErr)
    (hkey : key_fn model messages extras = .ok key)
    (hmiss : DiskCache.get disk0 key = Option.none)
    (hq : spf messages = .ok q)
    (hfail : ∀ t, cfg.embed t = .error e) :
    wrapper disk0 sem0 (some cfg) r2s rfs key_fn spf func model messages extras now =
      ⟨.error e, disk0, sem0, 0, 1, 0⟩ := by
  simp [wrapper, hkey, hmiss, semanticStage, hq, hfail q]

/-- Witness for the amended C4. -/
theorem claim_C4_degradation_amended_witness :
    wrapper [] []
        (some ⟨fun _ => .error (.exc "EmbeddingUnavailable"), fun _ => Option.none⟩)
        default_response_to_str Option.none (fun _ _ _ => .ok "K")
        default_semantic_prompt_fn (fun _ _ _ => .ok (PyVal.str "computed"))
        "m" [[("role", "user"), ("content", "hi")]] Option.none 0 =
      ⟨.error (.exc "EmbeddingUnavailable"), [], [], 0, 1, 0⟩ :=
  claim_C4_degradation_amended [] []
    ⟨fun _ => .error (.exc "EmbeddingUnavailable"), fun _ => Option.none⟩
    default_response_to_str Option.none (fun _ _ _ => .ok "K")
    default_semantic_prompt_fn (fun _ _ _ => .ok (PyVal.str "computed"))
    "m" [[("role", "user"), ("content", "hi")]] Option.none 0 "K" "hi"
    (.exc "EmbeddingUnavailable") rfl rfl rfl (fun t => rfl)

/-- C5: with the neighbor at distance `dist`, similarity is `1 - dist`; at
similarity exactly the threshold (or above) `SemanticCache.get` returns a
hit carrying that similarity; strictly below it returns no hit, and the
wrapper then proceeds to `compute` (one invocation) and write-back. -/
theorem claim_C5_threshold_boundary
    (embed : String → Except PyErr (List ℚ))
    (queryFn : List ℚ → Option (ℚ × Option (List (String × PyVal))))
    (prompt : String) (threshold dist : ℚ)
    (meta : Option (List (String × PyVal))) (qemb : List ℚ)
    (hemb : embed prompt = .ok qemb)
    (hq : queryFn qemb = some (dist, meta)) :
    (threshold ≤ 1 - dist →
      ∃ pl, SemanticCache.get embed queryFn prompt threshold =
        .ok (some ⟨1 - dist, pl⟩)) ∧
    (1 - dist < threshold →
      SemanticCache.get embed queryFn prompt threshold = .ok Option.none) ∧
    (∀ (disk0 : List DiskRow) (sem0 : List SemRecord)
       (r2s : PyVal → Except PyErr String)
       (rfs : Option (String → Except PyErr PyVal))
       (key_fn : String → List Msg → Option Extras → Except PyErr String)
       (spf : List Msg → Except PyErr String)
       (func : String → List Msg → Option Extras → Except PyErr PyVal)
       (model : String) (messages : List Msg) (extras : Option Extras) (now : ℚ)
       (key : String) (resp : PyVal) (s : String),
      1 - dist < (86 / 100 : ℚ) →
      key_fn model messages extras = .ok key →
      DiskCache.get disk0 key = Option.none →
      spf messages = .ok prompt →
      func model messages extras = .ok resp →
      r2s resp = .ok s →
      ∃ sem2 ec,
        wrapper disk0 sem0 (some ⟨embed, queryFn⟩) r2s rfs key_fn spf func
            model messages extras now =
          ⟨.ok resp, DiskCache.set disk0 key s now, sem2, 1, ec, 1⟩) := by
  refine ⟨?_, ?_, ?_⟩
  · intro h
    refine ⟨(match (meta.getD []).find? (fun p => p.1 == "payload") with
      | Option.none => PyVal.none
      | some (_, PyVal.str s) =>
        (match json_loads s with
         | .ok v => v
         | .error _ => PyVal.none)
      | some (_, v) => v), ?_⟩
    simp only [SemanticCache.get, hemb, SemanticCache.query_hit, hq, h, if_true]
  · intro h
    have hnot : ¬ threshold ≤ 1 - dist := not_le.mpr h
    simp only [SemanticCache.get, hemb, SemanticCache.query_hit, hq, hnot, if_false]
  · intro disk0 sem0 r2s rfs key_fn spf func model messages extras now key resp s
      h hkey hmiss hspf hfunc hser
    have hnot : ¬ (86 / 100 : ℚ) ≤ 1 - dist := not_le.mpr h
    have hqh : SemanticCache.query_hit (queryFn qemb) (86 / 100 : ℚ) =
        Option.none := by
      simp only [SemanticCache.query_hit, hq, hnot, if_false]
    simp only [wrapper, hkey, hmiss, semanticStage, hspf, hemb, hqh]
    exact computeAndSave_ok (some ⟨embed, queryFn⟩) r2s spf func model messages
      extras key disk0 sem0 now 1 1 resp s hfunc hser

/-- Witness for C5: threshold 0.86 with distance 0.14 (similarity exactly
0.86, a hit) and distance 0.15 (similarity 0.85, a miss that forces one
compute invocation). -/
theorem claim_C5_threshold_boundary_witness :
    (∃ pl, SemanticCache.get (fun _ => .ok [(1 : ℚ)])
        (fun _ => some ((14 / 100 : ℚ), Option.none)) "q" (86 / 100 : ℚ) =
      .ok (some ⟨1 - 14 / 100, pl⟩)) ∧
    SemanticCache.get (fun _ => .ok [(1 : ℚ)])
        (fun _ => some ((15 / 100 : ℚ), Option.none)) "q" (86 / 100 : ℚ) =
      .ok Option.none ∧
    (∃ sem2 ec,
      wrapper [] [] (some ⟨fun _ => .ok [(1 : ℚ)],
          fun _ => some ((15 / 100 : ℚ), Option.none)⟩)
        (fun _ => .ok "S") Option.none (fun _ _ _ => .ok "K") (fun _ => .ok "q")
        (fun _ _ _ => .ok (PyVal.str "computed")) "m"
        [[("role", "user"), ("content", "hi")]] Option.none 9 =
      ⟨.ok (PyVal.str "computed"), DiskCache.set [] "K" "S" 9, sem2, 1, ec, 1⟩) := by
  refine ⟨?_, ?_, ?_⟩
  · exact (claim_C5_threshold_boundary (fun _ => .ok [(1 : ℚ)])
      (fun _ => some ((14 / 100 : ℚ), Option.none)) "q" (86 / 100) (14 / 100)
      Option.none [(1 : ℚ)] rfl rfl).1 (by norm_num)
  · exact (claim_C5_threshold_boundary (fun _ => .ok [(1 : ℚ)])
      (fun _ => some ((15 / 100 : ℚ), Option.none)) "q" (86 / 100) (15 / 100)
      Option.none [(1 : ℚ)] rfl rfl).2.1 (by norm_num)
  · exact (claim_C5_threshold_boundary (fun _ => .ok [(1 : ℚ)])
      (fun _ => some ((15 / 100 : ℚ), Option.none)) "q" (86 / 100) (15 / 100)
      Option.none [(1 : ℚ)] rfl rfl).2.2 [] [] (fun _ => .ok "S") Option.none
      (fun _ _ _ => .ok "K") (fun _ => .ok "q")
      (fun _ _ _ => .ok (PyVal.str "computed")) "m"
      [[("role", "user"), ("content", "hi")]] Option.none 9 "K"
      (PyVal.str "computed") "S" (by norm_num) rfl rfl rfl rfl rfl

/-- C6 counterexample: an exact-store entry whose text the deserializer
rejects (the stored response is the unparseable text `\x7b`) makes `fetch`
raise the deserialization error instead of falling through: the result is
the error and `compute` is never invoked, contradicting the claim that a
corrupt exact entry is treated as a miss. -/
theorem claim_C6_corrupt_entry_counterexample :
    wrapper [("K", "\x7b", 0)] [] Option.none default_response_to_str Option.none
        (fun _ _ _ => .ok "K") default_semantic_prompt_fn
        (fun _ _ _ => .ok (PyVal.str "computed")) "m"
        [[("role", "user"), ("content", "hi")]] Option.none 1 =
      ⟨.error .jsonDecodeError, [("K", "\x7b", 0)], [], 0, 0, 0⟩ := rfl

/-- C6 amended: a semantic record whose payload metadata is not valid JSON
is treated as a miss for that source — the wrapper falls through to
`compute` (one invocation) — but an exact-store entry that the deserializer
rejects is not: its deserialization error propagates, with no compute and
both stores unchanged. -/
theorem claim_C6_corrupt_entry_amended
    (disk0 : List DiskRow) (sem0 : List SemRecord) (cfg : SemCfg)
    (r2s : PyVal → Except PyErr String)
    (rfs : Option (String → Except PyErr PyVal))
    (key_fn : String → List Msg → Option Extras → Except PyErr String)
    (spf : List Msg → Except PyErr String)
    (func : String → List Msg → Option Extras → Except PyErr PyVal)
    (model : String) (messages : List Msg) (extras : Option Extras) (now : ℚ) :
    (∀ (key c : String) (e : PyErr),
      key_fn model messages extras = .ok key →
      DiskCache.get disk0 key = some c →
      deserialize rfs c = .error e →
      wrapper disk0 sem0 (some cfg) r2s rfs key_fn spf func model messages extras now =
        ⟨.error e, disk0, sem0, 0, 0, 0⟩) ∧
    (∀ (key q : String) (qemb : List ℚ) (dist : ℚ)
       (meta : List (String × PyVal)) (bads : String) (e2 : PyErr)
       (resp : PyVal) (s : String),
      key_fn model messages extras = .ok key →
      DiskCache.get disk0 key = Option.none →
      spf messages = .ok q →
      cfg.embed q = .ok qemb →
      cfg.queryTop1 qemb = some (dist, some meta) →
      meta.find? (fun p => p.1 == "payload") = some ("payload", PyVal.str bads) →
      json_loads bads = .error e2 →
      (86 / 100 : ℚ) ≤ 1 - dist →
      func model messages extras = .ok resp →
      r2s resp = .ok s →
      ∃ sem2 ec,
        wrapper disk0 sem0 (some cfg) r2s rfs key_fn spf func model messages extras now =
          ⟨.ok resp, DiskCache.set disk0 key s now, sem2, 1, ec, 1⟩) := by
  constructor
  · intro key c e hkey hhit hbad
    simp [wrapper, hkey, hhit, hbad]
  · intro key q qemb dist meta bads e2 resp s hkey hmiss hspf hemb hquery hmeta
      hbadjson hsim hfunc hser
    have hqh : SemanticCache.query_hit (cfg.queryTop1 qemb) (86 / 100 : ℚ) =
        some ⟨1 - dist, PyVal.none⟩ := by
      simp only [SemanticCache.query_hit, hquery, hsim, if_true, Option.getD,
        hmeta, hbadjson]
    simp only [wrapper, hkey, hmiss, semanticStage, hspf, hemb, hqh]
    exact computeAndSave_ok (some cfg) r2s spf func model messages extras key
      disk0 sem0 now 1 1 resp s hfunc hser

/-- Witness for the amended C6: a corrupt exact entry propagates its parse
error; a corrupt semantic payload (`metadata "payload"` holding `\x7b`)
falls through to one compute invocation. -/
theorem claim_C6_corrupt_entry_amended_witness :
    wrapper [("K", "\x7b", 0)] []
        (some ⟨fun _ => .ok [(1 : ℚ)],
               fun _ => some ((0 : ℚ), some [("payload", PyVal.str "\x7b")])⟩)
        (fun _ => .ok "S") Option.none (fun _ _ _ => .ok "K") (fun _ => .ok "q")
        (fun _ _ _ => .ok (PyVal.str "computed")) "m"
        [[("role", "user"), ("content", "hi")]] Option.none 1 =
      ⟨.error .jsonDecodeError, [("K", "\x7b", 0)], [], 0, 0, 0⟩ ∧
    (∃ sem2 ec,
      wrapper [] []
          (some ⟨fun _ => .ok [(1 : ℚ)],
                 fun _ => some ((0 : ℚ), some [("payload", PyVal.str "\x7b")])⟩)
          (fun _ => .ok "S") Option.none (fun _ _ _ => .ok "K") (fun _ => .ok "q")
          (fun _ _ _ => .ok (PyVal.str "computed")) "m"
          [[("role", "user"), ("content", "hi")]] Option.none 2 =
        ⟨.ok (PyVal.str "computed"), DiskCache.set [] "K" "S" 2, sem2, 1, ec, 1⟩) := by
  constructor
  · exact (claim_C6_corrupt_entry_amended [("K", "\x7b", 0)] []
      ⟨fun _ => .ok [(1 : ℚ)],
       fun _ => some ((0 : ℚ), some [("payload", PyVal.str "\x7b")])⟩
      (fun _ => .ok "S") Option.none (fun _ _ _ => .ok "K") (fun _ => .ok "q")
      (fun _ _ _ => .ok (PyVal.str "computed")) "m"
      [[("role", "user"), ("content", "hi")]] Option.none 1).1
      "K" "\x7b" .jsonDecodeError rfl rfl rfl
  · exact (claim_C6_corrupt_entry_amended [] []
      ⟨fun _ => .ok [(1 : ℚ)],
       fun _ => some ((0 : ℚ), some [("payload", PyVal.str "\x7b")])⟩
      (fun _ => .ok "S") Option.none (fun _ _ _ => .ok "K") (fun _ => .ok "q")
      (fun _ _ _ => .ok (PyVal.str "computed")) "m"
      [[("role", "user"), ("content", "hi")]] Option.none 2).2
      "K" "q" [(1 : ℚ)] 0 [("payload", PyVal.str "\x7b")] "\x7b" .jsonDecodeError
      (PyVal.str "computed") "S" rfl rfl rfl rfl rfl rfl rfl (by norm_num) rfl rfl

/-- C9: when the exact lookup misses, the semantic lookup (if configured)
misses, and `func` raises, the wrapper propagates exactly that exception,
invokes `func` exactly once, and leaves the disk store and the semantic
store unchanged. -/
theorem claim_C9_compute_error_atomicity
    (disk0 : List DiskRow) (sem0 : List SemRecord)
    (r2s : PyVal → Except PyErr String)
    (rfs : Option (String → Except PyErr PyVal))
    (key_fn : String → List Msg → Option Extras → Except PyErr String)
    (spf : List Msg → Except PyErr String)
    (func : String → List Msg → Option Extras → Except PyErr PyVal)
    (model : String) (messages : List Msg) (extras : Option Extras) (now : ℚ)
    (key : String) (e : PyErr)
    (hkey : key_fn model messages extras = .ok key)
    (hmiss : DiskCache.get disk0 key = Option.none)
    (hfunc : func model messages extras = .error e) :
    (wrapper disk0 sem0 Option.none r2s rfs key_fn spf func model messages extras now =
      ⟨.error e, disk0, sem0, 1, 0, 0⟩) ∧
    (∀ (cfg : SemCfg) (q : String) (qemb : List ℚ),
      spf messages = .ok q →
      cfg.embed q = .ok qemb →
      SemanticCache.query_hit (cfg.queryTop1 qemb) (86 / 100 : ℚ) = Option.none →
      wrapper disk0 sem0 (some cfg) r2s rfs key_fn spf func model messages extras now =
        ⟨.error e, disk0, sem0, 1, 1, 1⟩) := by
  constructor
  · simp [wrapper, hkey, hmiss, computeAndSave, hfunc]
  · intro cfg q qemb hspf hemb hqh
    simp [wrapper, hkey, hmiss, semanticStage, hspf, hemb, hqh, computeAndSave, hfunc]

/-- Witness for C9: the compute spy raises; with and without a semantic
cache the error comes back verbatim and the stores are unchanged. -/
theorem claim_C9_compute_error_atomicity_witness :
    (wrapper [("other", "x", 0)] [⟨"id", [(1 : ℚ)], "doc", "meta"⟩] Option.none
        default_response_to_str Option.none (fun _ _ _ => .ok "K")
        (fun _ => .ok "q") (fun _ _ _ => .error (.exc "ComputeBoom")) "m"
        [[("role", "user"), ("content", "hi")]] Option.none 7 =
      ⟨.error (.exc "ComputeBoom"), [("other", "x", 0)],
       [⟨"id", [(1 : ℚ)], "doc", "meta"⟩], 1, 0, 0⟩) ∧
    (wrapper [("other", "x", 0)] [⟨"id", [(1 : ℚ)], "doc", "meta"⟩]
        (some ⟨fun _ => .ok [(1 : ℚ)], fun _ => Option.none⟩)
        default_response_to_str Option.none (fun _ _ _ => .ok "K")
        (fun _ => .ok "q") (fun _ _ _ => .error (.exc "ComputeBoom")) "m"
        [[("role", "user"), ("content", "hi")]] Option.none 7 =
      ⟨.error (.exc "ComputeBoom"), [("other", "x", 0)],
       [⟨"id", [(1 : ℚ)], "doc", "meta"⟩], 1, 1, 1⟩) := by
  constructor
  · exact (claim_C9_compute_error_atomicity [("other", "x", 0)]
      [⟨"id", [(1 : ℚ)], "doc", "meta"⟩] default_response_to_str Option.none
      (fun _ _ _ => .ok "K") (fun _ => .ok "q")
      (fun _ _ _ => .error (.exc "ComputeBoom")) "m"
      [[("role", "user"), ("content", "hi")]] Option.none 7 "K"
      (.exc "ComputeBoom") rfl rfl rfl).1
  · exact (claim_C9_compute_error_atomicity [("other", "x", 0)]
      [⟨"id", [(1 : ℚ)], "doc", "meta"⟩] default_response_to_str Option.none
      (fun _ _ _ => .ok "K") (fun _ => .ok "q")
      (fun _ _ _ => .error (.exc "ComputeBoom")) "m"
      [[("role", "user"), ("content", "hi")]] Option.none 7 "K"
      (.exc "ComputeBoom") rfl rfl rfl).2
      ⟨fun _ => .ok [(1 : ℚ)], fun _ => Option.none⟩ "q" [(1 : ℚ)] rfl rfl rfl

/-- C10: with a semantic cache configured and a disk miss, calling the
wrapper with an empty message list under the default `semantic_prompt_fn`
raises `IndexError` (from `m[-1]` on an empty list) before any compute;
with no semantic cache configured the same call does not fail in the cache
layer and proceeds to `compute` (one invocation, normal write-back). -/
theorem claim_C10_empty_messages
    (disk0 : List DiskRow) (sem0 : List SemRecord) (cfg : SemCfg)
    (r2s : PyVal → Except PyErr String)
    (rfs : Option (String → Except PyErr PyVal))
    (key_fn : String → List Msg → Option Extras → Except PyErr String)
    (func : String → List Msg → Option Extras → Except PyErr PyVal)
    (model : String) (extras : Option Extras) (now : ℚ) (key : String)
    (hkey : key_fn model [] extras = .ok key)
    (hmiss : DiskCache.get disk0 key = Option.none) :
    (wrapper disk0 sem0 (some cfg) r2s rfs key_fn default_semantic_prompt_fn
        func model [] extras now =
      ⟨.error .indexError, disk0, sem0, 0, 0, 0⟩) ∧
    (∀ (resp : PyVal) (s : String),
      func model [] extras = .ok resp →
      r2s resp = .ok s →
      wrapper disk0 sem0 Option.none r2s rfs key_fn default_semantic_prompt_fn
          func model [] extras now =
        ⟨.ok resp, DiskCache.set disk0 key s now, sem0, 1, 0, 0⟩) := by
  constructor
  · simp [wrapper, hkey, hmiss, semanticStage, default_semantic_prompt_fn]
  · intro resp s hfunc hser
    simp [wrapper, hkey, hmiss, computeAndSave, hfunc, hser]

/-- Witness for C10 at concrete stores. -/
theorem claim_C10_empty_messages_witness :
    (wrapper [] [] (some ⟨fun _ => .ok [(1 : ℚ)], fun _ => Option.none⟩)
        (fun _ => .ok "S") Option.none (fun _ _ _ => .ok "K")
        default_semantic_prompt_fn (fun _ _ _ => .ok (PyVal.str "r")) "m" []
        Option.none 3 =
      ⟨.error .indexError, [], [], 0, 0, 0⟩) ∧
    (wrapper [] [] Option.none (fun _ => .ok "S") Option.none
        (fun _ _ _ => .ok "K") default_semantic_prompt_fn
        (fun _ _ _ => .ok (PyVal.str "r")) "m" [] Option.none 3 =
      ⟨.ok (PyVal.str "r"), DiskCache.set [] "K" "S" 3, [], 1, 0, 0⟩) := by
  constructor
  · exact (claim_C10_empty_messages [] []
      ⟨fun _ => .ok [(1 : ℚ)], fun _ => Option.none⟩ (fun _ => .ok "S")
      Option.none (fun _ _ _ => .ok "K") (fun _ _ _ => .ok (PyVal.str "r"))
      "m" Option.none 3 "K" rfl rfl).1
  · exact (claim_C10_empty_messages [] []
      ⟨fun _ => .ok [(1 : ℚ)], fun _ => Option.none⟩ (fun _ => .ok "S")
      Option.none (fun _ _ _ => .ok "K") (fun _ _ _ => .ok (PyVal.str "r"))
      "m" Option.none 3 "K" rfl rfl).2 (PyVal.str "r") "S" rfl rfl
